import Mathlib

set_option autoImplicit false

namespace CasperFFI

/-- Access rights of a capability reference.  Modelled from the spec: the
access-rights component of a capability is a subset of READ, WRITE, ADD
(the defining module, uref.rs, is not among the repository files given). -/
structure AccessRights where
  read : Bool
  write : Bool
  add : Bool
  deriving DecidableEq

/-- Capability reference.  Modelled from the spec: an unforgeable address
together with access rights (uref.rs is not among the files given). -/
structure URef where
  address : List Nat
  accessRights : AccessRights
  deriving DecidableEq

/-- Tagged address union.  Modelled from the spec: an account address, a
content-hash address, or a capability reference (key.rs is not among the
files given). -/
inductive Key where
  | account (address : List Nat)
  | hash (address : List Nat)
  | uref (u : URef)
  deriving DecidableEq

/-- Public key of an account, as an opaque byte identifier (the defining
module is not among the files given). -/
structure PublicKey where
  value : List Nat
  deriving DecidableEq

/-- Block time is a number (a u64 in the crate). -/
abbrev BlockTime := Nat

/-- Modelled from the spec: the phase enumeration of a deploy sub-step. -/
inductive Phase where
  | payment
  | session
  | finalizeDeploy
  deriving DecidableEq

/-- Typed value envelope.  Modelled from the spec: a type descriptor together
with the raw serialized payload bytes (value.rs is not among the files
given). -/
structure CLValue where
  typeDescriptor : Nat
  rawBytes : List Nat
  deriving DecidableEq

/-- Errors of converting a typed value envelope into a requested type: a
serialization failure of the envelope itself, or a type mismatch between the
descriptor and the requested type (mirrors CLValueError of the crate). -/
inductive CLValueError where
  | serialization (e : Nat)
  | typeMismatch (expected found : Nat)
  deriving DecidableEq

/-- Why a guest function reverted: the structured cause behind the numeric
code that the Rust code passes to the revert FFI. -/
inductive RevertReason where
  | deserializationFailed (e : Nat)
  | clValueError (e : CLValueError)
  | apiError (code : Nat)
  | argsParseFailed (e : Nat)
  deriving DecidableEq

/-- Result of running one guest binding: a value, or a revert that aborts the
whole execution. -/
inductive Outcome (α : Type) where
  | ok (a : α)
  | revert (reason : RevertReason)
  deriving DecidableEq

/-- One host call made by the guest, as recorded in a trace.  Copy calls
carry the length of the guest buffer the host is asked to fill. -/
inductive FFICall where
  | load_arg (index : Nat)
  | get_arg (bufLen : Nat)
  | get_key (name : String)
  | load_named_keys
  | list_named_keys (bufLen : Nat)
  | get_caller (bufLen : Nat)
  | get_blocktime (bufLen : Nat)
  | get_phase (bufLen : Nat)
  | call_contract (keyLen argsLen urefsLen : Nat)
  | get_call_result (bufLen : Nat)
  | has_key (name : String)
  | is_valid_uref (u : URef)
  | put_key (name : String) (k : Key)
  | remove_key (name : String)
  | upgrade_contract_at_uref (name : String)
  deriving DecidableEq

/-- The host calls whose return value is a byte count used to size a guest
buffer (the sizing half of the two-phase marshalling protocol). -/
def FFICall.isSizing : FFICall → Bool
  | .load_arg _ => true
  | .get_key _ => true
  | .load_named_keys => true
  | .call_contract _ _ _ => true
  | _ => false

/-- The host calls that copy host bytes into an already allocated guest
buffer (the fetch half of the two-phase marshalling protocol). -/
def FFICall.isCopy : FFICall → Bool
  | .get_arg _ => true
  | .list_named_keys _ => true
  | .get_caller _ => true
  | .get_blocktime _ => true
  | .get_phase _ => true
  | .get_call_result _ => true
  | _ => false

/-- Strict lexicographic order on code-point lists: the shorter list is
smaller when it is a proper prefix, otherwise the first differing position
decides. -/
def listLtb : List Nat → List Nat → Bool
  | [], [] => false
  | [], _ :: _ => true
  | _ :: _, [] => false
  | a :: as, b :: bs => if a < b then true else if a = b then listLtb as bs else false

/-- Strict lexicographic order on names, by code points (the order of the
Rust standard String, which the ordered map sorts by). -/
def nameLtb (s t : String) : Bool :=
  listLtb (s.data.map Char.toNat) (t.data.map Char.toNat)

/-- Adjacent entries are strictly increasing in the name. -/
def sortedByName : List (String × Key) → Bool
  | [] => true
  | [_] => true
  | a :: b :: rest => nameLtb a.1 b.1 && sortedByName (b :: rest)

/-- Modelled from the spec: the namespace snapshot that list_named_keys
decodes into.  The Rust target type is a standard ordered map from String to
Key, whose entries are strictly increasing in the name, so enumeration order
is lexicographic by name. -/
structure NamedKeys where
  entries : List (String × Key)
  sorted : sortedByName entries = true

/-- Serialized size of a block time (a u64 in the crate; the constant is
declared in block_time.rs, which is not among the files given).  What matters
for the marshalling claims is that it is a compile-time constant, not a
host-reported size. -/
def BLOCKTIME_SER_SIZE : Nat := 8

/-- Serialized size of a phase value (declared in execution.rs, which is not
among the files given); a compile-time constant, not a host-reported size. -/
def PHASE_SIZE : Nat := 1

/-- The serialization codec and the typed-envelope decoders are external
collaborators of the binding (bytesrepr and the value module are not among
the files given), so they appear as abstract deterministic functions. -/
structure Codec where
  deserializeCLValue : List Nat → Except Nat CLValue
  deserializePublicKey : List Nat → Except Nat PublicKey
  deserializeBlockTime : List Nat → Except Nat BlockTime
  deserializePhase : List Nat → Except Nat Phase
  toOptKey : CLValue → Except CLValueError (Option Key)
  toNamedKeys : CLValue → Except CLValueError NamedKeys
  serializePublicKey : PublicKey → List Nat

/-- A deterministic host, as observable through the FFI boundary.  Sizing
fields give the integer a sizing call returns; copy fields give the bytes the
host writes into a guest buffer.  The copy performed by the get_arg FFI is
one field used from two places (get_arg and get_key do call the same host
operation); it receives the staging call that preceded it and the buffer
length, so the host answer may depend on which value was staged. -/
structure Host where
  load_arg : Nat → Int
  get_arg_copy : FFICall → Nat → List Nat
  get_key_size : String → Nat
  load_named_keys_size : Nat
  list_named_keys_copy : Nat → List Nat
  get_caller_copy : Nat → List Nat
  get_blocktime_copy : Nat → List Nat
  get_phase_copy : Nat → List Nat
  call_contract_size : List Nat → List Nat → List Nat → Nat
  get_call_result_copy : List Nat → List Nat → List Nat → Nat → List Nat
  has_key_status : String → Int
  is_valid_uref_status : URef → Int
  upgrade_status : String → Key → Int
  put_key_ret : String → Key → Int
  remove_key_ret : String → Int

namespace runtime

/-- Embedding of the private load_arg of runtime.rs (lines 79 to 86): the
sizing call for argument access; a negative size is mapped to none, a
non-negative one is cast to an unsigned length. -/
def load_arg (h : Host) (index : Nat) : Option Nat × List FFICall :=
  let argSize := h.load_arg index
  (if 0 ≤ argSize then some argSize.toNat else none, [FFICall.load_arg index])

/-- The deserialize-then-convert pipeline shared by the envelope decodes of
runtime.rs: deserialize the envelope, tag a failure as a serialization error,
then convert to the requested type. -/
def decodeArg {α : Type} (c : Codec) (toT : CLValue → Except CLValueError α)
    (bytes : List Nat) : Except CLValueError α :=
  match c.deserializeCLValue bytes with
  | Except.error e => Except.error (CLValueError.serialization e)
  | Except.ok cv => toT cv

/-- Embedding of get_arg of runtime.rs (lines 91 to 105): size via load_arg,
short-circuit to none on the negative sentinel, otherwise allocate a buffer
of the reported length, fetch via the get_arg FFI and decode. -/
def get_arg {α : Type} (h : Host) (c : Codec) (toT : CLValue → Except CLValueError α)
    (i : Nat) : Option (Except CLValueError α) × List FFICall :=
  match load_arg h i with
  | (none, t) => (none, t)
  | (some argSize, t) =>
      let argBytes := h.get_arg_copy (FFICall.load_arg i) argSize
      (some (decodeArg c toT argBytes), t ++ [FFICall.get_arg argSize])

/-- Embedding of get_caller of runtime.rs (lines 111 to 117): a fixed 36-byte
buffer is allocated and filled by a single copy call (there is no sizing host
call), then deserialized, reverting on failure. -/
def get_caller (h : Host) (c : Codec) : Outcome PublicKey × List FFICall :=
  let bytes := h.get_caller_copy 36
  let result :=
    match c.deserializePublicKey bytes with
    | Except.error e => Outcome.revert (RevertReason.deserializationFailed e)
    | Except.ok pk => Outcome.ok pk
  (result, [FFICall.get_caller 36])

/-- Embedding of get_blocktime of runtime.rs (lines 119 to 126): a buffer of
the compile-time constant size, one copy call, no sizing call. -/
def get_blocktime (h : Host) (c : Codec) : Outcome BlockTime × List FFICall :=
  let bytes := h.get_blocktime_copy BLOCKTIME_SER_SIZE
  let result :=
    match c.deserializeBlockTime bytes with
    | Except.error e => Outcome.revert (RevertReason.deserializationFailed e)
    | Except.ok bt => Outcome.ok bt
  (result, [FFICall.get_blocktime BLOCKTIME_SER_SIZE])

/-- Embedding of get_phase of runtime.rs (lines 128 to 133): a buffer of the
compile-time constant size, one copy call, no sizing call. -/
def get_phase (h : Host) (c : Codec) : Outcome Phase × List FFICall :=
  let bytes := h.get_phase_copy PHASE_SIZE
  let result :=
    match c.deserializePhase bytes with
    | Except.error e => Outcome.revert (RevertReason.deserializationFailed e)
    | Except.ok p => Outcome.ok p
  (result, [FFICall.get_phase PHASE_SIZE])

/-- Embedding of get_key of runtime.rs (lines 138 to 153): size via the
get_key FFI, allocate a buffer of exactly that length with no sentinel check,
fetch via the get_arg FFI (the source reuses the argument-fetch host call,
see the EE-426 comment at line 143), then decode, reverting on either decode
failure. -/
def get_key (h : Host) (c : Codec) (name : String) : Outcome (Option Key) × List FFICall :=
  let keySize := h.get_key_size name
  let keyBytes := h.get_arg_copy (FFICall.get_key name) keySize
  let result :=
    match c.deserializeCLValue keyBytes with
    | Except.error e => Outcome.revert (RevertReason.deserializationFailed e)
    | Except.ok cv =>
        match c.toOptKey cv with
        | Except.error e => Outcome.revert (RevertReason.clValueError e)
        | Except.ok k => Outcome.ok k
  (result, [FFICall.get_key name, FFICall.get_arg keySize])

/-- Embedding of has_key of runtime.rs (lines 156 to 160): the key exists
exactly when the host status is zero. -/
def has_key (h : Host) (name : String) : Bool × List FFICall :=
  (h.has_key_status name == 0, [FFICall.has_key name])

/-- Embedding of put_key of runtime.rs (lines 163 to 167).  The Rust call
statement ends in a semicolon, so whatever the FFI declaration returns is
discarded; any host status is modelled and then dropped. -/
def put_key (h : Host) (name : String) (key : Key) : Outcome Unit × List FFICall :=
  let _status := h.put_key_ret name key
  (Outcome.ok (), [FFICall.put_key name key])

/-- Embedding of remove_key of runtime.rs (lines 170 to 173); as with
put_key, any host status is discarded. -/
def remove_key (h : Host) (name : String) : Outcome Unit × List FFICall :=
  let _status := h.remove_key_ret name
  (Outcome.ok (), [FFICall.remove_key name])

/-- Embedding of list_named_keys of runtime.rs (lines 175 to 186): size via
the load_named_keys FFI, allocate a buffer of exactly that length, fetch via
the list_named_keys FFI, then decode, reverting on either decode failure. -/
def list_named_keys (h : Host) (c : Codec) : Outcome NamedKeys × List FFICall :=
  let bytesSize := h.load_named_keys_size
  let bytes := h.list_named_keys_copy bytesSize
  let result :=
    match c.deserializeCLValue bytes with
    | Except.error e => Outcome.revert (RevertReason.deserializationFailed e)
    | Except.ok cv =>
        match c.toNamedKeys cv with
        | Except.error e => Outcome.revert (RevertReason.clValueError e)
        | Except.ok m => Outcome.ok m
  (result, [FFICall.load_named_keys, FFICall.list_named_keys bytesSize])

/-- Embedding of is_valid_uref of runtime.rs (lines 189 to 193): the
capability is reported valid exactly when the host result is nonzero. -/
def is_valid_uref (h : Host) (uref : URef) : Bool × List FFICall :=
  (h.is_valid_uref_status uref != 0, [FFICall.is_valid_uref uref])

/-- Embedding of call_contract of runtime.rs (lines 44 to 62).  The contract
key, the arguments and the extra urefs are serialized before any host call;
the parsed argument bytes arrive as an Except because ArgsParser::parse is
fallible and a failure reverts before any host call is made.  The
call_contract FFI itself returns the result size; the guest then allocates a
buffer of exactly that length and fetches via get_call_result. -/
def call_contract (h : Host) (c : Codec) (keyBytes : List Nat)
    (parsedArgs : Except Nat (List Nat)) (urefsBytes : List Nat) :
    Outcome CLValue × List FFICall :=
  match parsedArgs with
  | Except.error e => (Outcome.revert (RevertReason.argsParseFailed e), [])
  | Except.ok argsBytes =>
      let resSize := h.call_contract_size keyBytes argsBytes urefsBytes
      let resBytes := h.get_call_result_copy keyBytes argsBytes urefsBytes resSize
      let result :=
        match c.deserializeCLValue resBytes with
        | Except.error e => Outcome.revert (RevertReason.deserializationFailed e)
        | Except.ok v => Outcome.ok v
      (result, [FFICall.call_contract keyBytes.length argsBytes.length urefsBytes.length,
        FFICall.get_call_result resSize])

/-- Modelled from the spec: error::result_from maps a host status code to Ok
for zero and to a specific error kind for nonzero (error.rs is not among the
files given; the spec fixes the convention zero equals success). -/
def result_from (value : Int) : Except Nat Unit :=
  if value = 0 then Except.ok () else Except.error value.toNat

/-- Embedding of upgrade_contract_at_uref of runtime.rs (lines 67 to 77): one
status-returning host call; zero status yields unit, nonzero reverts. -/
def upgrade_contract_at_uref (h : Host) (name : String) (uref : URef) :
    Outcome Unit × List FFICall :=
  let key := Key.uref uref
  let trace := [FFICall.upgrade_contract_at_uref name]
  match result_from (h.upgrade_status name key) with
  | Except.ok _ => (Outcome.ok (), trace)
  | Except.error e => (Outcome.revert (RevertReason.apiError e), trace)

end runtime

/-- Abstract type descriptor of an entry-point signature. -/
abbrev CLType := Nat

/-- Modelled from the spec: access level of one entry point. -/
inductive EntryPointAccess where
  | everyone
  | restricted
  deriving DecidableEq

/-- Modelled from the spec: kind of one entry point. -/
inductive EntryPointKind where
  | session
  | contract
  deriving DecidableEq

/-- Modelled from the spec: one published entry point of a stored contract,
a name, ordered parameters, a return type, an access level and a kind. -/
structure EntryPoint where
  name : String
  parameters : List (String × CLType)
  returnType : CLType
  access : EntryPointAccess
  kind : EntryPointKind
  deriving DecidableEq

/-- The published entry-point table of a stored contract. -/
abbrev EntryPointTable := List EntryPoint

/-- Modelled from the spec: the contract record stored at a capability
reference, carrying the entry-point table, the named keys bound to the
record, and a monotonically increasing protocol/version marker (the host
storage engine is not among the files given). -/
structure ContractRecord where
  entryPoints : EntryPointTable
  namedKeys : List (String × Key)
  version : Nat
  deriving DecidableEq

/-- Modelled from the spec: the host side of the upgrade primitive reached
through upgrade_contract_at_uref.  It overwrites the record at the reference
with a new entry-point table, preserves the named keys already bound to that
record, and bumps the version marker. -/
def host_upgrade_contract (rec : ContractRecord) (newTable : EntryPointTable) :
    ContractRecord :=
  { entryPoints := newTable, namedKeys := rec.namedKeys, version := rec.version + 1 }

/-- Modelled from the spec: one execution-context frame, carrying a phase, a
caller identity, a nesting depth and the forwarded capabilities (the host
execution engine is not among the files given). -/
structure ExecutionContext where
  phase : Phase
  callerIdentity : PublicKey
  nestingDepth : Nat
  forwardedCapabilities : List Key
  deriving DecidableEq

/-- Modelled from the spec: the execution-context stack of one top-level
deploy, rooted at the original transaction signer. -/
structure ExecutionStack where
  signer : PublicKey
  frames : List ExecutionContext
  deriving DecidableEq

/-- Modelled from the spec: pushing one contract invocation onto the stack.
The caller identity of the new frame is fixed to the original transaction
signer, never to the invoking contract, at every nesting level. -/
def push_invocation (st : ExecutionStack) (ph : Phase) (caps : List Key) :
    ExecutionStack :=
  { signer := st.signer,
    frames := { phase := ph, callerIdentity := st.signer,
                nestingDepth := st.frames.length,
                forwardedCapabilities := caps } :: st.frames }

/-- The caller identity the innermost execution context carries (the signer
itself at the root, before any invocation was pushed). -/
def observedCaller (st : ExecutionStack) : PublicKey :=
  match st.frames with
  | [] => st.signer
  | f :: _ => f.callerIdentity

/-- Modelled from the spec: the host answers the get-caller-identity FFI with
the serialized caller identity of the innermost execution context. -/
def host_of_stack (c : Codec) (st : ExecutionStack) (base : Host) : Host :=
  { base with get_caller_copy := fun _ => c.serializePublicKey (observedCaller st) }

/-- A concrete codec for evaluating the bindings on closed inputs: the
envelope wraps the raw bytes unchanged, a public key is its own byte list,
and every conversion succeeds trivially. -/
def codec0 : Codec :=
  { deserializeCLValue := fun bs => Except.ok { typeDescriptor := 0, rawBytes := bs },
    deserializePublicKey := fun bs => Except.ok { value := bs },
    deserializeBlockTime := fun _ => Except.ok 0,
    deserializePhase := fun _ => Except.ok Phase.session,
    toOptKey := fun _ => Except.ok none,
    toNamedKeys := fun _ => Except.ok { entries := [], sorted := rfl },
    serializePublicKey := fun pk => pk.value }

/-- A concrete host for evaluating the bindings on closed inputs: every
argument is absent, every size is zero, every status is zero. -/
def host0 : Host :=
  { load_arg := fun _ => -1,
    get_arg_copy := fun _ _ => [],
    get_key_size := fun _ => 0,
    load_named_keys_size := 0,
    list_named_keys_copy := fun _ => [],
    get_caller_copy := fun _ => [],
    get_blocktime_copy := fun _ => [],
    get_phase_copy := fun _ => [],
    call_contract_size := fun _ _ _ => 0,
    get_call_result_copy := fun _ _ _ _ => [],
    has_key_status := fun _ => 0,
    is_valid_uref_status := fun _ => 0,
    upgrade_status := fun _ _ => 0,
    put_key_ret := fun _ _ => 0,
    remove_key_ret := fun _ => 0 }

/-- A host on which argument 0 is present with three bytes. -/
def host1 : Host :=
  { host0 with load_arg := fun i => if i = 0 then 3 else -1 }

/-- A codec whose typed conversions fail with a type mismatch, exercising the
decode-mismatch paths of the bindings. -/
def codecMismatch : Codec :=
  { codec0 with
    toOptKey := fun _ => Except.error (CLValueError.typeMismatch 0 1),
    toNamedKeys := fun _ => Except.error (CLValueError.typeMismatch 0 1) }

/-- A concrete two-entry namespace snapshot, names in lexicographic order. -/
def namedKeys2 : NamedKeys :=
  { entries := [("alpha", Key.account [1]), ("beta", Key.account [2])],
    sorted := by decide }

/-- A codec that decodes the named-keys envelope to the concrete two-entry
snapshot. -/
def codecNamedKeys : Codec :=
  { codec0 with toNamedKeys := fun _ => Except.ok namedKeys2 }

/-- A concrete capability reference. -/
def uref0 : URef :=
  { address := [7], accessRights := { read := true, write := false, add := false } }

/-- The root execution stack of a concrete deploy signed by one account. -/
def stackRoot : ExecutionStack :=
  { signer := { value := [1, 2, 3] }, frames := [] }

/-- A concrete public key distinct from the signer of stackRoot, standing for
the address of an intermediate contract. -/
def pkOther : PublicKey := { value := [9] }

/-- The sortedness invariant of a namespace snapshot, read back as the
chain of strict lexicographic comparisons between adjacent entries. -/
theorem sortedByName_chain' (l : List (String × Key)) (hs : sortedByName l = true) :
    l.Chain' (fun a b => nameLtb a.1 b.1 = true) := by
  induction l with
  | nil => simp
  | cons a rest ih =>
      cases rest with
      | nil => simp
      | cons b rest' =>
          rw [sortedByName, Bool.and_eq_true] at hs
          exact List.chain'_cons.mpr ⟨hs.1, ih hs.2⟩

/-- C1, counterexample: get_caller transfers a host value with no sizing host
call at all — on a concrete host its trace is nonempty and contains no sizing
call, so not every host-to-guest transfer follows the two-phase protocol. -/
theorem get_caller_bypasses_sizing :
    (runtime.get_caller host0 codec0).2 = [FFICall.get_caller 36] ∧
    ((runtime.get_caller host0 codec0).2.all fun e => !e.isSizing) = true ∧
    (runtime.get_caller host0 codec0).2 ≠ [] := by
  refine ⟨rfl, rfl, ?_⟩
  decide

/-- C1, amended: the variable-length transfers (call_contract result, get_arg,
get_key, list_named_keys) follow the two-phase protocol — a sizing call
first, then a copy call into a buffer of exactly the returned length — while
get_caller, get_blocktime and get_phase allocate fixed-size buffers (36,
BLOCKTIME_SER_SIZE and PHASE_SIZE bytes) and make a single copy call with no
sizing step. -/
theorem two_phase_marshalling {α : Type} (h : Host) (c : Codec)
    (toT : CLValue → Except CLValueError α) (i : Nat) (name : String)
    (keyBytes argsBytes urefsBytes : List Nat) :
    (0 ≤ h.load_arg i →
      (runtime.get_arg h c toT i).2 =
        [FFICall.load_arg i, FFICall.get_arg (h.load_arg i).toNat]) ∧
    (runtime.get_key h c name).2 =
      [FFICall.get_key name, FFICall.get_arg (h.get_key_size name)] ∧
    (runtime.list_named_keys h c).2 =
      [FFICall.load_named_keys, FFICall.list_named_keys h.load_named_keys_size] ∧
    (runtime.call_contract h c keyBytes (Except.ok argsBytes) urefsBytes).2 =
      [FFICall.call_contract keyBytes.length argsBytes.length urefsBytes.length,
       FFICall.get_call_result (h.call_contract_size keyBytes argsBytes urefsBytes)] ∧
    (runtime.get_caller h c).2 = [FFICall.get_caller 36] ∧
    (runtime.get_blocktime h c).2 = [FFICall.get_blocktime BLOCKTIME_SER_SIZE] ∧
    (runtime.get_phase h c).2 = [FFICall.get_phase PHASE_SIZE] ∧
    ((runtime.get_caller h c).2.all fun e => !e.isSizing) = true ∧
    ((runtime.get_blocktime h c).2.all fun e => !e.isSizing) = true ∧
    ((runtime.get_phase h c).2.all fun e => !e.isSizing) = true := by
  refine ⟨fun h0 => ?_, rfl, rfl, rfl, rfl, rfl, rfl, rfl, rfl, rfl⟩
  simp [runtime.get_arg, runtime.load_arg, h0]

/-- C2: get_arg i is none exactly when the sizing call reports a negative
size, in which case the trace stops at the sizing call (no fetch) and no
failure is raised; and it is some error value — an outcome distinct from
none — exactly when the size is non-negative and the fetched bytes do not
decode as the requested type. -/
theorem get_arg_absent_and_decode {α : Type} (h : Host) (c : Codec)
    (toT : CLValue → Except CLValueError α) (i : Nat) :
    ((runtime.get_arg h c toT i).1 = none ↔ h.load_arg i < 0) ∧
    (h.load_arg i < 0 → (runtime.get_arg h c toT i).2 = [FFICall.load_arg i]) ∧
    (∀ e : CLValueError,
      (runtime.get_arg h c toT i).1 = some (Except.error e) ↔
        (0 ≤ h.load_arg i ∧
          runtime.decodeArg c toT
              (h.get_arg_copy (FFICall.load_arg i) (h.load_arg i).toNat) =
            Except.error e)) := by
  by_cases h0 : 0 ≤ h.load_arg i
  · refine ⟨?_, ?_, ?_⟩
    · simp [runtime.get_arg, runtime.load_arg, h0, not_lt.mpr h0]
    · intro hneg
      exact absurd h0 (not_le.mpr hneg)
    · intro e
      simp [runtime.get_arg, runtime.load_arg, h0]
  · have hneg : h.load_arg i < 0 := not_le.mp h0
    refine ⟨?_, ?_, ?_⟩
    · simp [runtime.get_arg, runtime.load_arg, h0, hneg]
    · intro _
      simp [runtime.get_arg, runtime.load_arg, h0]
    · intro e
      simp [runtime.get_arg, runtime.load_arg, h0]

/-- C8: the fetch step of get_key is the very same argument-fetch host call
(the get_arg FFI) that get_arg uses for copying an argument, made after
sizing through the get_key host call; there is no dedicated key-fetch call in
its trace. -/
theorem get_key_fetch_reuses_arg_fetch {α : Type} (h : Host) (c : Codec)
    (toT : CLValue → Except CLValueError α) (name : String) (i : Nat) :
    (runtime.get_key h c name).2 =
      [FFICall.get_key name, FFICall.get_arg (h.get_key_size name)] ∧
    (0 ≤ h.load_arg i →
      (runtime.get_arg h c toT i).2 =
        [FFICall.load_arg i, FFICall.get_arg (h.load_arg i).toNat]) := by
  refine ⟨rfl, fun h0 => ?_⟩
  simp [runtime.get_arg, runtime.load_arg, h0]

/-- C9: get_key allocates and fetches unconditionally — its trace always
contains the fetch call, sized directly by the integer the get_key host call
returned, with no sentinel short-circuit — and its none result arises exactly
when the fetched envelope decodes to an absent key. -/
theorem get_key_unconditional_fetch (h : Host) (c : Codec) (name : String) :
    (runtime.get_key h c name).2 =
      [FFICall.get_key name, FFICall.get_arg (h.get_key_size name)] ∧
    ((runtime.get_key h c name).1 = Outcome.ok none ↔
      ∃ cv : CLValue,
        c.deserializeCLValue
            (h.get_arg_copy (FFICall.get_key name) (h.get_key_size name)) =
          Except.ok cv ∧
        c.toOptKey cv = Except.ok none) := by
  refine ⟨rfl, ?_⟩
  cases hde : c.deserializeCLValue
      (h.get_arg_copy (FFICall.get_key name) (h.get_key_size name)) with
  | error e => simp [runtime.get_key, hde]
  | ok cv =>
      cases hk : c.toOptKey cv with
      | error e => simp [runtime.get_key, hde, hk]
      | ok k => simp [runtime.get_key, hde, hk]

/-- C10: put_key and remove_key are infallible at the guest interface — each
returns unit after its single host call, never reverts, and no host status
reaches the calling contract. -/
theorem put_remove_key_infallible (h : Host) (name : String) (key : Key) :
    (runtime.put_key h name key).1 = Outcome.ok () ∧
    (runtime.put_key h name key).2 = [FFICall.put_key name key] ∧
    (runtime.remove_key h name).1 = Outcome.ok () ∧
    (runtime.remove_key h name).2 = [FFICall.remove_key name] :=
  ⟨rfl, rfl, rfl, rfl⟩

/-- C3: across three nested invocations pushed onto the execution stack, the
caller identity observed through get_caller equals the original transaction
signer — never the address of an intermediate contract — and every pushed
frame carries the signer as its caller identity. -/
theorem get_caller_identity_flattening (c : Codec) (base : Host)
    (st0 : ExecutionStack) (phA phB phC : Phase)
    (capsA capsB capsC : List Key) (b : PublicKey)
    (hrt : ∀ pk, c.deserializePublicKey (c.serializePublicKey pk) = Except.ok pk)
    (hb : b ≠ st0.signer) :
    (runtime.get_caller
        (host_of_stack c
          (push_invocation
            (push_invocation (push_invocation st0 phA capsA) phB capsB) phC capsC)
          base) c).1 = Outcome.ok st0.signer ∧
    (runtime.get_caller
        (host_of_stack c
          (push_invocation
            (push_invocation (push_invocation st0 phA capsA) phB capsB) phC capsC)
          base) c).1 ≠ Outcome.ok b ∧
    ∀ f ∈ (push_invocation
        (push_invocation (push_invocation st0 phA capsA) phB capsB) phC capsC).frames.take 3,
      f.callerIdentity = st0.signer := by
  have hobs :
      observedCaller (push_invocation
        (push_invocation (push_invocation st0 phA capsA) phB capsB) phC capsC) = st0.signer := rfl
  have h1 :
      (runtime.get_caller
          (host_of_stack c
            (push_invocation
              (push_invocation (push_invocation st0 phA capsA) phB capsB) phC capsC)
            base) c).1 = Outcome.ok st0.signer := by
    simp [runtime.get_caller, host_of_stack, hobs, hrt st0.signer]
  refine ⟨h1, ?_, ?_⟩
  · rw [h1]
    intro hcontra
    exact hb (by injection hcontra with hv; exact hv.symm)
  · intro f hf
    simp only [push_invocation, List.take, List.mem_cons, List.not_mem_nil, or_false] at hf
    rcases hf with hf | hf | hf <;> subst hf <;> rfl

/-- C3, witness: the theorem applied to a concrete deploy of three nested
invocations, with a concrete round-tripping codec and a contract address
distinct from the signer. -/
theorem get_caller_identity_flattening_witness :
    (runtime.get_caller
        (host_of_stack codec0
          (push_invocation
            (push_invocation (push_invocation stackRoot Phase.payment [])
              Phase.session []) Phase.session [])
          host0) codec0).1 = Outcome.ok stackRoot.signer ∧
    (runtime.get_caller
        (host_of_stack codec0
          (push_invocation
            (push_invocation (push_invocation stackRoot Phase.payment [])
              Phase.session []) Phase.session [])
          host0) codec0).1 ≠ Outcome.ok pkOther ∧
    ∀ f ∈ (push_invocation
        (push_invocation (push_invocation stackRoot Phase.payment [])
          Phase.session []) Phase.session []).frames.take 3,
      f.callerIdentity = stackRoot.signer :=
  get_caller_identity_flattening codec0 host0 stackRoot Phase.payment
    Phase.session Phase.session [] [] [] pkOther (fun _ => rfl) (by decide)

/-- C4, counterexample: on a concrete host, with a codec whose typed
conversion reports a type mismatch on the fetched envelope, get_key and
list_named_keys abort execution with a revert instead of surfacing a
recoverable failure value. -/
theorem get_key_decode_mismatch_aborts :
    (runtime.get_key host0 codecMismatch "purse").1 =
      Outcome.revert (RevertReason.clValueError (CLValueError.typeMismatch 0 1)) ∧
    (runtime.list_named_keys host0 codecMismatch).1 =
      Outcome.revert (RevertReason.clValueError (CLValueError.typeMismatch 0 1)) :=
  ⟨rfl, rfl⟩

/-- C4, amended: a decode mismatch is surfaced to the caller as a recoverable
typed failure value by get_arg, but in get_key and list_named_keys a decode
mismatch causes a revert — an abort of execution — rather than a recoverable
value. -/
theorem decode_mismatch_policy {α : Type} (h : Host) (c : Codec)
    (toT : CLValue → Except CLValueError α) (i : Nat) (name : String)
    (e : CLValueError) :
    (0 ≤ h.load_arg i →
      runtime.decodeArg c toT
          (h.get_arg_copy (FFICall.load_arg i) (h.load_arg i).toNat) =
        Except.error e →
      (runtime.get_arg h c toT i).1 = some (Except.error e)) ∧
    (∀ cv : CLValue,
      c.deserializeCLValue
          (h.get_arg_copy (FFICall.get_key name) (h.get_key_size name)) =
        Except.ok cv →
      c.toOptKey cv = Except.error e →
      (runtime.get_key h c name).1 =
        Outcome.revert (RevertReason.clValueError e)) ∧
    (∀ cv : CLValue,
      c.deserializeCLValue (h.list_named_keys_copy h.load_named_keys_size) =
        Except.ok cv →
      c.toNamedKeys cv = Except.error e →
      (runtime.list_named_keys h c).1 =
        Outcome.revert (RevertReason.clValueError e)) := by
  refine ⟨fun h0 hdec => ?_, fun cv hde hk => ?_, fun cv hde hk => ?_⟩
  · simp [runtime.get_arg, runtime.load_arg, h0, hdec]
  · simp [runtime.get_key, hde, hk]
  · simp [runtime.list_named_keys, hde, hk]

/-- C5: upgrading the record at an existing contract reference with a new
entry-point table leaves the named keys bound to the record unchanged,
replaces the entry-point table, bumps the version marker to a strictly
greater value, and changes nothing else of the record. -/
theorem upgrade_preserves_named_keys (rec : ContractRecord)
    (newTable : EntryPointTable) :
    (host_upgrade_contract rec newTable).namedKeys = rec.namedKeys ∧
    (host_upgrade_contract rec newTable).entryPoints = newTable ∧
    rec.version < (host_upgrade_contract rec newTable).version ∧
    host_upgrade_contract rec newTable =
      { entryPoints := newTable, namedKeys := rec.namedKeys,
        version := rec.version + 1 } :=
  ⟨rfl, rfl, Nat.lt_succ_self _, rfl⟩

/-- C6: when the host-provided bytes decode to the namespace snapshot m,
list_named_keys returns exactly m; the entries of any snapshot are chained in
strict lexicographic order by name; and a second execution against a host
serving the same named-keys state yields the identical result. -/
theorem list_named_keys_deterministic_sorted (h h' : Host) (c : Codec)
    (m : NamedKeys) (cv : CLValue)
    (hde : c.deserializeCLValue (h.list_named_keys_copy h.load_named_keys_size) =
      Except.ok cv)
    (hm : c.toNamedKeys cv = Except.ok m)
    (hsz : h'.load_named_keys_size = h.load_named_keys_size)
    (hcopy : ∀ n, h'.list_named_keys_copy n = h.list_named_keys_copy n) :
    (runtime.list_named_keys h c).1 = Outcome.ok m ∧
    m.entries.Chain' (fun a b => nameLtb a.1 b.1 = true) ∧
    runtime.list_named_keys h' c = runtime.list_named_keys h c := by
  refine ⟨?_, sortedByName_chain' m.entries m.sorted, ?_⟩
  · simp [runtime.list_named_keys, hde, hm]
  · simp [runtime.list_named_keys, hsz, hcopy]

/-- C6, witness: the theorem applied to a concrete host and a codec decoding
to a concrete two-entry snapshot. -/
theorem list_named_keys_deterministic_sorted_witness :
    (runtime.list_named_keys host0 codecNamedKeys).1 = Outcome.ok namedKeys2 ∧
    namedKeys2.entries.Chain' (fun a b => nameLtb a.1 b.1 = true) ∧
    runtime.list_named_keys host0 codecNamedKeys =
      runtime.list_named_keys host0 codecNamedKeys :=
  list_named_keys_deterministic_sorted host0 host0 codecNamedKeys namedKeys2
    { typeDescriptor := 0, rawBytes := [] } rfl rfl rfl (fun _ => rfl)

/-- C7, counterexample: on a concrete host whose capability-validity call
returns the status 0, is_valid_uref reports the capability as invalid, so the
claimed zero-means-valid reading of is_valid_uref is false. -/
theorem is_valid_uref_zero_status_read_as_invalid :
    host0.is_valid_uref_status uref0 = 0 ∧
    (runtime.is_valid_uref host0 uref0).1 = false :=
  ⟨rfl, rfl⟩

/-- C7, amended: has_key reports the key as existing exactly when its host
call returns 0, while is_valid_uref reports the capability as valid exactly
when its host call returns nonzero. -/
theorem status_code_conventions (h : Host) (name : String) (u : URef) :
    ((runtime.has_key h name).1 = true ↔ h.has_key_status name = 0) ∧
    ((runtime.is_valid_uref h u).1 = true ↔ h.is_valid_uref_status u ≠ 0) := by
  constructor
  · simp [runtime.has_key]
  · simp [runtime.is_valid_uref]

end CasperFFI
